import Mathlib

/-!
Verification development for the Hamsa LiveKit plugin (speech-to-text and
text-to-speech adapters). The definitions below are a shallow embedding of
`src/stt.py` and `src/tts.py`: Python exception flow becomes `Except` values
with an explicit handler ladder mirroring the `except` clauses, HTTP
responses and transport failures become an explicit transport oracle, and
the host framework's byte-stream reassembly utility is modelled from its
documented contract.
-/

namespace Hamsa

/-! ## Error taxonomy (livekit.agents exception classes)

`APIStatusError`, `APIConnectionError` and `APITimeoutError` are all plain
`Exception` subclasses in the host framework; none of them is an
`asyncio.TimeoutError` or an `aiohttp.ClientError`. -/

/-- Errors surfaced to the caller of an adapter method. -/
inductive APIError where
  | statusError (message : String) (status_code : Nat) (body : Option String)
  | connectionError (message : String)
  | timeoutError (message : String)
deriving Repr, DecidableEq

/-- Exceptions that can be raised inside a `try` block of the adapters.
`apiStatus` is the `APIStatusError` raised by the adapter code itself on a
non-200 response; `timeoutErr` is `asyncio.TimeoutError`; `clientError` is
`aiohttp.ClientError`; `clientResponseError` is `aiohttp.ClientResponseError`
(a subclass of `ClientError`); `otherExc` is any other exception. -/
inductive PyExc where
  | timeoutErr
  | clientError
  | clientResponseError (message : String) (status : Nat)
  | apiStatus (message : String) (status_code : Nat) (body : Option String)
  | otherExc
deriving Repr, DecidableEq

/-! ## STT data model (src/stt.py) -/

/-- Options for the Hamsa STT service (src/stt.py, `HamsaSTTOptions`). -/
structure HamsaSTTOptions where
  language : String
  api_key : Option String
  base_url : String
deriving Repr, DecidableEq

/-- One audio frame of the input buffer: `samples_per_channel` and
`sample_rate` attributes, as read by the duration computation. -/
structure AudioFrame where
  samples_per_channel : Nat
  sample_rate : Nat
deriving Repr, DecidableEq

/-- The `AudioBuffer` argument as discriminated by `_recognize_impl`:
either a Python list of frames, a single frame object carrying
`samples_per_channel` and `sample_rate`, or anything else (no such
attributes). -/
inductive AudioBuffer where
  | frames (fs : List AudioFrame)
  | single (f : AudioFrame)
  | malformed
deriving Repr, DecidableEq

/-- The `data` object of the provider's JSON response: `{text?: string}`. -/
structure SttData where
  text : Option String
deriving Repr, DecidableEq

/-- The provider's JSON response `{success: bool, data?: {text}}`; an absent
or falsy `success` field is modelled as `success = false`. -/
structure SttResponse where
  success : Bool
  data : Option SttData
deriving Repr, DecidableEq

/-- Outcome of the `session.post` call in `_recognize_impl` together with
what reading the response would produce: `response status errorText json`
is a completed HTTP response (`errorText` is the body text used on non-200,
`json` the parsed body used on 200); the `raise*` constructors are the
transport-level exceptions the call can raise. -/
inductive SttTransport where
  | response (status : Nat) (errorText : String) (json : SttResponse)
  | raiseTimeout
  | raiseClientError
  | raiseOther
deriving Repr, DecidableEq

/-- A transcript alternative (livekit `stt.SpeechData`); the `gender`
attribute is set dynamically after construction in the source. -/
structure SpeechData where
  language : String
  text : String
  start_time : ℚ
  end_time : ℚ
  confidence : ℚ
  gender : String
deriving Repr, DecidableEq

/-- Event type of the returned speech event. -/
inductive SpeechEventType where
  | final_transcript
deriving Repr, DecidableEq

/-- The speech event returned by `_recognize_impl`. -/
structure SpeechEvent where
  type : SpeechEventType
  alternatives : List SpeechData
deriving Repr, DecidableEq

/-- Language resolution (src/stt.py line 135): the override when given,
else the language configured at construction. -/
def resolveLanguage (opts : HamsaSTTOptions) (language : Option String) : String :=
  match language with
  | none => opts.language
  | some l => l

/-- Transcript extraction (src/stt.py lines 180-182): text defaults to the
empty string unless `success` is truthy and `data` is present. -/
def parseTranscript (r : SttResponse) : String :=
  match r.success, r.data with
  | true, some d => d.text.getD ""
  | _, _ => ""

/-- Duration computation (src/stt.py lines 184-199). The inner `try` means
any exception — in particular the `ZeroDivisionError` from a zero sample
rate — is caught and leaves `end_time = 0`; the zero-rate branches below
model that caught exception. -/
def computeEndTime (b : AudioBuffer) : ℚ :=
  match b with
  | .frames fs =>
      let total := (fs.map AudioFrame.samples_per_channel).sum
      match fs with
      | [] => 0
      | f :: _ =>
          if 0 < total then
            if f.sample_rate = 0 then 0
            else (total : ℚ) / (f.sample_rate : ℚ)
          else 0
  | .single f =>
      if f.sample_rate = 0 then 0
      else (f.samples_per_channel : ℚ) / (f.sample_rate : ℚ)
  | .malformed => 0

/-- Construction of the returned event (src/stt.py lines 200-215):
`start_time = 0.0`, `confidence = 1.0`, `gender = "Male"`, exactly one
alternative. -/
def buildSpeechEvent (opts_language : String) (buffer : AudioBuffer)
    (json : SttResponse) : SpeechEvent :=
  let return_data : SpeechData :=
    { language := opts_language
      text := parseTranscript json
      start_time := 0
      end_time := computeEndTime buffer
      confidence := 1
      gender := "Male" }
  { type := .final_transcript, alternatives := [return_data] }

/-- Body of the `try` block of `_recognize_impl` (src/stt.py lines
158-215): a non-200 response raises `APIStatusError` (as a `PyExc`, since
the raise happens inside the `try`); a 200 response builds the event. -/
def recognizeTry (opts : HamsaSTTOptions) (language : Option String)
    (buffer : AudioBuffer) (tr : SttTransport) : Except PyExc SpeechEvent :=
  let opts_language := resolveLanguage opts language
  match tr with
  | .raiseTimeout => .error .timeoutErr
  | .raiseClientError => .error .clientError
  | .raiseOther => .error .otherExc
  | .response status errorText json =>
      if status ≠ 200 then
        .error (.apiStatus ("Hamsa API Error: " ++ errorText) status none)
      else
        .ok (buildSpeechEvent opts_language buffer json)

/-- The `except` ladder of `_recognize_impl` (src/stt.py lines 217-225), in
source order: `asyncio.TimeoutError` → `APITimeoutError`;
`aiohttp.ClientError` (including `ClientResponseError`) →
`APIConnectionError`; any other `Exception` — which includes the
`APIStatusError` raised in the body — → `APIConnectionError`. -/
def handleSttExc : PyExc → APIError
  | .timeoutErr => .timeoutError "Hamsa API request timed out"
  | .clientError => .connectionError "Hamsa API connection error"
  | .clientResponseError _ _ => .connectionError "Hamsa API connection error"
  | _ => .connectionError "Unexpected error in Hamsa STT"

/-- `STT._recognize_impl` (src/stt.py lines 113-225): the `try` body
followed by the exception handler ladder. -/
def recognizeImpl (opts : HamsaSTTOptions) (language : Option String)
    (buffer : AudioBuffer) (tr : SttTransport) : Except APIError SpeechEvent :=
  match recognizeTry opts language buffer tr with
  | .ok ev => .ok ev
  | .error e => .error (handleSttExc e)

/-! ## TTS data model (src/tts.py) -/

/-- `NUM_CHANNELS` constant (src/tts.py line 30). -/
def NUM_CHANNELS : Nat := 1

/-- TTS options (src/tts.py, `_TTSOptions`, omitting the host-framework
word tokenizer which plays no role in the adapter logic). -/
structure TTSOptions where
  speaker : String
  dialect : String
  mulaw : Bool
  sample_rate : Nat
deriving Repr, DecidableEq

/-- An argument set for `update_options`: each field is `NOT_GIVEN`
(`none`) or a new value (`some`). -/
structure OptionUpdate where
  speaker : Option String
  dialect : Option String
  sample_rate : Option Nat
deriving Repr, DecidableEq

/-- `SynthesizeStream.update_options` (src/tts.py lines 271-283): each
given field overwrites the corresponding option in place. -/
def applyUpdate (o : TTSOptions) (u : OptionUpdate) : TTSOptions :=
  let o1 := match u.speaker with | some s => { o with speaker := s } | none => o
  let o2 := match u.dialect with | some d => { o1 with dialect := d } | none => o1
  match u.sample_rate with | some r => { o2 with sample_rate := r } | none => o2

/-- An audio frame emitted to the caller by the reassembler. -/
structure TtsFrame where
  sample_rate : Nat
  num_channels : Nat
  data : List Nat
deriving Repr, DecidableEq

/-- Modelled from the spec: the host framework's byte-stream reassembly
utility `utils.audio.AudioByteStream` (§4.1 and §6 of the spec), an
external collaborator not part of this repository. It buffers incoming
bytes and cuts complete fixed-size frames at the configured sample rate
and channel count. -/
structure AudioByteStream where
  sample_rate : Nat
  num_channels : Nat
  buf : List Nat
deriving Repr, DecidableEq

/-- A fresh reassembler with an empty internal buffer. -/
def emptyBs (rate : Nat) : AudioByteStream :=
  { sample_rate := rate, num_channels := NUM_CHANNELS, buf := [] }

/-- Modelled from the spec: the reassembler's frame size in bytes — 10 ms
of 16-bit samples at the configured rate and channel count (the host
framework default). -/
def frameSizeBytes (bs : AudioByteStream) : Nat :=
  bs.sample_rate / 100 * bs.num_channels * 2

/-- Cut as many complete `n`-byte chunks as possible off the front of `l`,
returning the chunks in order and the remainder; `fuel` bounds the number
of cuts and is always instantiated with `l.length`, which suffices for any
`n > 0`. -/
def drainBuf (n : Nat) : Nat → List Nat → List (List Nat) × List Nat
  | 0, l => ([], l)
  | fuel + 1, l =>
      if 0 < n ∧ n ≤ l.length then
        let p := drainBuf n fuel (l.drop n)
        (l.take n :: p.1, p.2)
      else ([], l)

/-- Modelled from the spec: `AudioByteStream.write` (§4.1) — append the
bytes to the internal buffer, emit zero or more complete frames, keep the
remainder buffered. -/
def pushBytes (bs : AudioByteStream) (dat : List Nat) :
    List TtsFrame × AudioByteStream :=
  let buf2 := bs.buf ++ dat
  let p := drainBuf (frameSizeBytes bs) buf2.length buf2
  (p.1.map (fun d =>
      { sample_rate := bs.sample_rate, num_channels := bs.num_channels, data := d }),
   { bs with buf := p.2 })

/-- Modelled from the spec: `AudioByteStream.flush` (§4.1) — emit a final,
possibly short, frame from any buffered remainder and clear the buffer. -/
def flushStream (bs : AudioByteStream) : List TtsFrame × AudioByteStream :=
  if bs.buf.isEmpty then ([], { bs with buf := [] })
  else
    ([{ sample_rate := bs.sample_rate, num_channels := bs.num_channels,
        data := bs.buf }],
     { bs with buf := [] })

/-- The chunked response body: `iter_chunked` skips empty chunks
(`if chunk:` in both `ChunkedStream._run` and
`SynthesizeStream._synthesize_text`); each non-empty chunk is written to
the reassembler. -/
def writeChunks (bs : AudioByteStream) :
    List (List Nat) → List TtsFrame × AudioByteStream
  | [] => ([], bs)
  | c :: rest =>
      if c.isEmpty then writeChunks bs rest
      else
        let p := pushBytes bs c
        let q := writeChunks p.2 rest
        (p.1 ++ q.1, q.2)

/-- Outcome of the `session.post` in `ChunkedStream._run`, with the parsed
error body (`res.json()` first, else `res.text()`, else nothing). -/
inductive TtsTransport where
  | response (status : Nat) (reason : Option String) (errorBody : Option String)
      (chunks : List (List Nat))
  | raiseTimeout
  | raiseClientResponseError (message : String) (status : Nat)
  | raiseOther
deriving Repr, DecidableEq

/-- Body of the `try` block of `ChunkedStream._run` (src/tts.py lines
189-238): a non-200 response raises `APIStatusError` inside the `try`;
on 200 the chunks are reassembled and flushed. -/
def chunkedRunTry (opts : TTSOptions) (tr : TtsTransport) :
    Except PyExc (List TtsFrame) :=
  match tr with
  | .raiseTimeout => .error .timeoutErr
  | .raiseClientResponseError m s => .error (.clientResponseError m s)
  | .raiseOther => .error .otherExc
  | .response status reason errorBody chunks =>
      if status ≠ 200 then
        .error (.apiStatus (reason.getD "Unknown error occurred.") status errorBody)
      else
        let bs := emptyBs opts.sample_rate
        let p := writeChunks bs chunks
        let q := flushStream p.2
        .ok (p.1 ++ q.1)

/-- The `except` ladder of `ChunkedStream._run` (src/tts.py lines 240-250),
in source order: `asyncio.TimeoutError` → `APITimeoutError`;
`aiohttp.ClientResponseError` → `APIStatusError`; any other `Exception` —
which includes both `aiohttp.ClientError` and the `APIStatusError` raised
in the body — → `APIConnectionError`. -/
def handleChunkedExc : PyExc → APIError
  | .timeoutErr => .timeoutError ""
  | .clientResponseError m s => .statusError m s none
  | _ => .connectionError ""

/-- `ChunkedStream._run` (src/tts.py lines 182-250): the `try` body
followed by the exception handler ladder. -/
def chunkedRun (opts : TTSOptions) (tr : TtsTransport) :
    Except APIError (List TtsFrame) :=
  match chunkedRunTry opts tr with
  | .ok fs => .ok fs
  | .error e => .error (handleChunkedExc e)

/-! ## Streaming synthesis (`SynthesizeStream`, src/tts.py lines 253-359) -/

/-- Python `str.strip()` whitespace predicate (space, tab, newline,
carriage return, vertical tab, form feed). -/
def isPySpace (c : Char) : Bool :=
  c == ' ' || c == '\t' || c == '\n' || c == '\r' || c == '\x0b' || c == '\x0c'

/-- Python `str.strip()`: drop whitespace from both ends. -/
def pyStrip (s : String) : String :=
  ⟨((s.data.dropWhile isPySpace).reverse.dropWhile isPySpace).reverse⟩

/-- The sentence-terminal characters scanned for in `_process_input`
(src/tts.py line 301). -/
def isSentenceEnd (c : Char) : Bool :=
  c == '.' || c == '!' || c == '?' || c == '\n'

/-- Whether the accumulated text contains any sentence-terminal character
(`any(punct in accumulated_text ...)`, src/tts.py line 301). -/
def containsPunct (s : String) : Bool :=
  s.data.any isSentenceEnd

/-- An item read from the stream's input channel: a text token or the
flush sentinel (`_FlushSentinel`). -/
inductive InputData where
  | token (s : String)
  | flush
deriving Repr, DecidableEq

/-- One step of the text segmenter inlined in `_process_input` (src/tts.py
lines 296-310): given the current accumulator and one input item, return
the finalized segment emitted (if any) and the new accumulator. -/
def segStep (acc : String) : InputData → Option String × String
  | .token s =>
      let acc2 := acc ++ s
      if containsPunct acc2 then
        (if pyStrip acc2 = "" then none else some (pyStrip acc2), "")
      else (none, acc2)
  | .flush =>
      (if pyStrip acc = "" then none else some (pyStrip acc), "")

/-- The finalized segments produced by feeding a list of input items to the
segmenter starting from accumulator `acc`. -/
def segmentsFrom (acc : String) : List InputData → List String
  | [] => []
  | d :: rest =>
      match segStep acc d with
      | (some t, acc2) => t :: segmentsFrom acc2 rest
      | (none, acc2) => segmentsFrom acc2 rest

/-- The finalized segments produced from an initially empty accumulator. -/
def segmentsOf (l : List InputData) : List String :=
  segmentsFrom "" l

/-- An event observable by a running `SynthesizeStream`: an item arriving
on the input channel, or a concurrent `update_options` call (updates
interleave with input processing at `await` boundaries). -/
inductive StreamEvent where
  | input (d : InputData)
  | update (u : OptionUpdate)
deriving Repr, DecidableEq

/-- The input-channel items of an event trace. -/
def inputsOf (es : List StreamEvent) : List InputData :=
  es.filterMap (fun e => match e with | .input d => some d | .update _ => none)

/-- The options after applying every `update_options` call of the trace. -/
def applyEvents (o : TTSOptions) (es : List StreamEvent) : TTSOptions :=
  es.foldl (fun o e => match e with | .update u => applyUpdate o u | .input _ => o) o

/-- Outcome of the per-segment `session.post` in `_synthesize_text`: a
completed response with its status and body chunks, or an exception. -/
inductive SegResponse where
  | ok (chunks : List (List Nat))
  | badStatus (status : Nat) (reason : String)
  | exc
deriving Repr, DecidableEq

/-- An observable action of a streaming synthesis session, tagged with the
index of the segment it belongs to: the HTTP request for a segment, an
emitted audio frame, or a logged (and swallowed) per-segment error. -/
inductive Action where
  | request (seg : Nat) (text : String)
  | frame (seg : Nat) (f : TtsFrame)
  | logError (seg : Nat)
deriving Repr, DecidableEq

/-- The segment index an action belongs to. -/
def actionSeg : Action → Nat
  | .request k _ => k
  | .frame k _ => k
  | .logError k => k

/-- Body of the `try` block of `_synthesize_text` (src/tts.py lines
318-356), after the POST completed or raised: a non-200 response is logged
and the method returns (no exception); a 200 response streams the chunks
through the shared reassembler and flushes it; a raised exception is
reported as a `PyExc`. -/
def synthesizeTextTry (k : Nat) (bs : AudioByteStream) (resp : SegResponse) :
    Except PyExc (List Action × AudioByteStream) :=
  match resp with
  | .exc => .error .otherExc
  | .badStatus _ _ => .ok ([.logError k], bs)
  | .ok chunks =>
      let p := writeChunks bs chunks
      let q := flushStream p.2
      .ok ((p.1 ++ q.1).map (Action.frame k), q.2)

/-- `_synthesize_text` with its `except Exception` handler (src/tts.py
lines 358-359): any exception is logged and swallowed, so the call always
returns normally. -/
def runSegment (k : Nat) (bs : AudioByteStream) (resp : SegResponse) :
    Except PyExc (List Action × AudioByteStream) :=
  match synthesizeTextTry k bs resp with
  | .ok r => .ok r
  | .error _ => .ok ([.logError k], bs)

/-- The loop of `_process_input` (src/tts.py lines 291-312), with
`update_options` calls interleaved as events: text tokens are accumulated;
a terminal punctuation mark or a flush sentinel finalizes the trimmed
accumulator and synthesizes it through the shared reassembler `bs`; `k`
counts issued segment requests. -/
def runLoop (net : Nat → SegResponse) :
    List StreamEvent → String → AudioByteStream → TTSOptions → Nat →
    Except PyExc (List Action × AudioByteStream × TTSOptions × Nat)
  | [], _, bs, opts, k => .ok ([], bs, opts, k)
  | .update u :: rest, acc, bs, opts, k =>
      runLoop net rest acc bs (applyUpdate opts u) k
  | .input (.token s) :: rest, acc, bs, opts, k =>
      let acc2 := acc ++ s
      if containsPunct acc2 then
        if pyStrip acc2 = "" then runLoop net rest "" bs opts k
        else
          match runSegment k bs (net k) with
          | .error e => .error e
          | .ok (acts, bs2) =>
              match runLoop net rest "" bs2 opts (k + 1) with
              | .error e => .error e
              | .ok (acts2, r) =>
                  .ok ((Action.request k (pyStrip acc2) :: acts) ++ acts2, r)
      else runLoop net rest acc2 bs opts k
  | .input .flush :: rest, acc, bs, opts, k =>
      if pyStrip acc = "" then runLoop net rest "" bs opts k
      else
        match runSegment k bs (net k) with
        | .error e => .error e
        | .ok (acts, bs2) =>
            match runLoop net rest "" bs2 opts (k + 1) with
            | .error e => .error e
            | .ok (acts2, r) =>
                .ok ((Action.request k (pyStrip acc) :: acts) ++ acts2, r)

/-- `SynthesizeStream._run` (src/tts.py lines 285-312): the reassembler is
created once, from the sample rate in effect when the run loop starts, and
is shared by every segment of the session. -/
def streamRun (opts : TTSOptions) (events : List StreamEvent)
    (net : Nat → SegResponse) :
    Except PyExc (List Action × AudioByteStream × TTSOptions × Nat) :=
  runLoop net events "" (emptyBs opts.sample_rate) opts 0

/-- The actions of one segment synthesized through a fresh (empty-buffer)
reassembler at the given rate: frames on success, a logged error on a bad
status or an exception. -/
def segBody (rate k : Nat) (resp : SegResponse) : List Action :=
  match resp with
  | .exc => [.logError k]
  | .badStatus _ _ => [.logError k]
  | .ok chunks =>
      let p := writeChunks (emptyBs rate) chunks
      let q := flushStream p.2
      (p.1 ++ q.1).map (Action.frame k)

/-- The full action block of one segment: its request followed by its
body. -/
def segActions (rate k : Nat) (text : String) (resp : SegResponse) :
    List Action :=
  Action.request k text :: segBody rate k resp

/-- The sequential concatenation of the action blocks of a list of
segments, numbering them from `k`. -/
def segTraces (net : Nat → SegResponse) (rate : Nat) : Nat → List String → List Action
  | _, [] => []
  | k, t :: ts => segActions rate k t (net k) ++ segTraces net rate (k + 1) ts

/-- The text of a request action, if the action is a request. -/
def requestText : Action → Option String
  | .request _ t => some t
  | _ => none

/-- The frame carried by a frame action, if the action is a frame. -/
def frameOf : Action → Option TtsFrame
  | .frame _ f => some f
  | _ => none

/-- The concatenated payload bytes of the frames among a list of actions,
in emission order. -/
def framesBytes (acts : List Action) : List Nat :=
  ((acts.filterMap frameOf).map TtsFrame.data).flatten

/-! ## Claims about the recognition adapter -/

/-- Claim C1 (code bug). The spec — and the docstring of
`STT._recognize_impl` itself — say a non-200 response raises
`APIStatusError` carrying the exact HTTP status code. The code does raise
that error, but it raises it inside the same `try` block whose final
handler is `except Exception → raise APIConnectionError`, and
`APIStatusError` is neither an `asyncio.TimeoutError` nor an
`aiohttp.ClientError`, so the catch-all re-wraps it: the caller of either
adapter receives `APIConnectionError`, never the status error. Evaluated
here at a 500 response for both `STT._recognize_impl` and
`ChunkedStream._run`: the `try` body produces the status error, the
handler ladder turns it into a connection error, and a connection error is
not a status error of any code. -/
theorem non200_wrapped_as_connection_error :
    recognizeTry ⟨"ar", some "key", "url"⟩ none (.frames [])
        (.response 500 "Internal Server Error" ⟨false, none⟩)
      = .error (.apiStatus "Hamsa API Error: Internal Server Error" 500 none) ∧
    recognizeImpl ⟨"ar", some "key", "url"⟩ none (.frames [])
        (.response 500 "Internal Server Error" ⟨false, none⟩)
      = .error (.connectionError "Unexpected error in Hamsa STT") ∧
    chunkedRunTry ⟨"Ali", "pls", false, 16000⟩
        (.response 500 (some "Internal Server Error") none [])
      = .error (.apiStatus "Internal Server Error" 500 none) ∧
    chunkedRun ⟨"Ali", "pls", false, 16000⟩
        (.response 500 (some "Internal Server Error") none [])
      = .error (.connectionError "") ∧
    ∀ (m : String) (c : Nat) (b : Option String),
      APIError.connectionError "Unexpected error in Hamsa STT" ≠ .statusError m c b :=
  ⟨rfl, rfl, rfl, rfl, fun _ _ _ h => APIError.noConfusion h⟩

/-- Claim C5 (confirmed). A 200 response whose JSON has `success = false`,
or whose `data` field is absent, yields a normal result with an empty
transcript text; no error is raised. -/
theorem recognize_unsuccessful_empty_transcript (opts : HamsaSTTOptions)
    (lang : Option String) (buffer : AudioBuffer) (errText : String)
    (d : Option SttData) (b : Bool) :
    (∃ ev, recognizeImpl opts lang buffer (.response 200 errText ⟨false, d⟩) = .ok ev ∧
       ev.alternatives.map SpeechData.text = [""]) ∧
    (∃ ev, recognizeImpl opts lang buffer (.response 200 errText ⟨b, none⟩) = .ok ev ∧
       ev.alternatives.map SpeechData.text = [""]) := by
  constructor
  · exact ⟨_, rfl, by simp [buildSpeechEvent, parseTranscript]⟩
  · refine ⟨_, rfl, ?_⟩
    cases b <;> simp [buildSpeechEvent, parseTranscript]

/-- Claim C6 (confirmed). Every successful recognize call reports
confidence exactly 1, and the result's language is the override when one
was passed, else the language configured at construction. -/
theorem recognize_confidence_language (opts : HamsaSTTOptions) (l : String)
    (buffer : AudioBuffer) (errText : String) (json : SttResponse) :
    (∃ ev, recognizeImpl opts (some l) buffer (.response 200 errText json) = .ok ev ∧
       ev.alternatives.map SpeechData.confidence = [1] ∧
       ev.alternatives.map SpeechData.language = [l]) ∧
    (∃ ev, recognizeImpl opts none buffer (.response 200 errText json) = .ok ev ∧
       ev.alternatives.map SpeechData.confidence = [1] ∧
       ev.alternatives.map SpeechData.language = [opts.language]) := by
  constructor <;>
    exact ⟨_, rfl, by simp [buildSpeechEvent], by simp [buildSpeechEvent, resolveLanguage]⟩

/-- Claim C10 (confirmed). Every successful recognize call returns exactly
one alternative, with `start_time = 0` and `gender = "Male"`, regardless
of input audio, language, or provider response body. -/
theorem recognize_single_alt_start_gender (opts : HamsaSTTOptions)
    (lang : Option String) (buffer : AudioBuffer) (errText : String)
    (json : SttResponse) :
    ∃ ev, recognizeImpl opts lang buffer (.response 200 errText json) = .ok ev ∧
      ev.alternatives.length = 1 ∧
      ev.alternatives.map SpeechData.start_time = [0] ∧
      ev.alternatives.map SpeechData.gender = ["Male"] :=
  ⟨_, rfl, by simp [buildSpeechEvent], by simp [buildSpeechEvent],
     by simp [buildSpeechEvent]⟩

/-- Claim C8 (confirmed). For a successful recognize call, the result's
`end_time` is the buffer's total samples-per-channel divided by its sample
rate (for a list of frames sharing one rate, or a single frame); it is 0
for an empty or malformed buffer; and a zero sample rate — which in the
source raises `ZeroDivisionError` inside the duration `try` — is caught
and reported as zero duration rather than propagated. -/
theorem recognize_end_time_spec (opts : HamsaSTTOptions) (lang : Option String)
    (errText : String) (json : SttResponse) (samples : List Nat) (sr m : Nat)
    (hsr : sr ≠ 0) (hsum : samples.sum ≠ 0) :
    (∃ ev, recognizeImpl opts lang
        (.frames (samples.map (fun n => ⟨n, sr⟩))) (.response 200 errText json) = .ok ev ∧
       ev.alternatives.map SpeechData.end_time = [(samples.sum : ℚ) / (sr : ℚ)]) ∧
    (∃ ev, recognizeImpl opts lang (.single ⟨m, sr⟩)
        (.response 200 errText json) = .ok ev ∧
       ev.alternatives.map SpeechData.end_time = [(m : ℚ) / (sr : ℚ)]) ∧
    (∃ ev, recognizeImpl opts lang (.frames []) (.response 200 errText json) = .ok ev ∧
       ev.alternatives.map SpeechData.end_time = [0]) ∧
    (∃ ev, recognizeImpl opts lang .malformed (.response 200 errText json) = .ok ev ∧
       ev.alternatives.map SpeechData.end_time = [0]) ∧
    (∃ ev, recognizeImpl opts lang (.single ⟨m, 0⟩) (.response 200 errText json) = .ok ev ∧
       ev.alternatives.map SpeechData.end_time = [0]) ∧
    (∃ ev, recognizeImpl opts lang
        (.frames (samples.map (fun n => ⟨n, 0⟩))) (.response 200 errText json) = .ok ev ∧
       ev.alternatives.map SpeechData.end_time = [0]) := by
  refine ⟨⟨_, rfl, ?_⟩, ⟨_, rfl, ?_⟩, ⟨_, rfl, ?_⟩, ⟨_, rfl, ?_⟩, ⟨_, rfl, ?_⟩,
    ⟨_, rfl, ?_⟩⟩
  · cases samples with
    | nil => exact absurd rfl hsum
    | cons n ns =>
        have hpos : 0 < n + ns.sum := by
          have := Nat.pos_of_ne_zero hsum
          simpa using this
        simp [buildSpeechEvent, computeEndTime, hsr, hpos, Function.comp_def]
  · simp [buildSpeechEvent, computeEndTime, hsr]
  · simp [buildSpeechEvent, computeEndTime]
  · simp [buildSpeechEvent, computeEndTime]
  · simp [buildSpeechEvent, computeEndTime]
  · cases samples with
    | nil => simp [buildSpeechEvent, computeEndTime]
    | cons n ns => simp [buildSpeechEvent, computeEndTime]

/-! ## Reassembler lemmas -/

/-- The concatenated payload bytes of a list of frames. -/
def framesData (fs : List TtsFrame) : List Nat :=
  (fs.map TtsFrame.data).flatten

lemma drainBuf_flatten (n : Nat) :
    ∀ (fuel : Nat) (l : List Nat),
      (drainBuf n fuel l).1.flatten ++ (drainBuf n fuel l).2 = l := by
  intro fuel
  induction fuel with
  | zero => intro l; simp [drainBuf]
  | succ m ih =>
      intro l
      by_cases h : 0 < n ∧ n ≤ l.length
      · simp only [drainBuf, if_pos h, List.flatten_cons, List.append_assoc, ih]
        exact List.take_append_drop n l
      · simp [drainBuf, if_neg h]

lemma pushBytes_bytes (bs : AudioByteStream) (dat : List Nat) :
    framesData (pushBytes bs dat).1 ++ (pushBytes bs dat).2.buf = bs.buf ++ dat := by
  simp only [pushBytes, framesData, List.map_map]
  have h : (TtsFrame.data ∘ fun d =>
      ({ sample_rate := bs.sample_rate, num_channels := bs.num_channels,
         data := d } : TtsFrame)) = id := rfl
  rw [h, List.map_id]
  exact drainBuf_flatten _ _ _

lemma pushBytes_rate (bs : AudioByteStream) (dat : List Nat) :
    ∀ f ∈ (pushBytes bs dat).1, f.sample_rate = bs.sample_rate := by
  intro f hf
  simp only [pushBytes, List.mem_map] at hf
  obtain ⟨d, _, rfl⟩ := hf
  rfl

lemma writeChunks_sr (chunks : List (List Nat)) :
    ∀ bs : AudioByteStream,
      (writeChunks bs chunks).2.sample_rate = bs.sample_rate ∧
      (writeChunks bs chunks).2.num_channels = bs.num_channels := by
  induction chunks with
  | nil => intro bs; exact ⟨rfl, rfl⟩
  | cons c rest ih =>
      intro bs
      by_cases hc : c.isEmpty
      · simpa [writeChunks, hc] using ih bs
      · simpa [writeChunks, hc] using ih (pushBytes bs c).2

lemma writeChunks_bytes (chunks : List (List Nat)) :
    ∀ bs : AudioByteStream,
      framesData (writeChunks bs chunks).1 ++ (writeChunks bs chunks).2.buf =
        bs.buf ++ chunks.flatten := by
  induction chunks with
  | nil => intro bs; simp [writeChunks, framesData]
  | cons c rest ih =>
      intro bs
      by_cases hc : c.isEmpty
      · have hc2 : c = [] := by simpa using hc
        simpa [writeChunks, hc, hc2] using ih bs
      · simp only [writeChunks, if_neg hc, List.flatten_cons]
        have h1 := pushBytes_bytes bs c
        have h2 := ih (pushBytes bs c).2
        simp only [framesData, List.map_append, List.flatten_append] at h1 h2 ⊢
        rw [List.append_assoc, h2, ← List.append_assoc, h1, List.append_assoc]

lemma writeChunks_rate (chunks : List (List Nat)) :
    ∀ bs : AudioByteStream, ∀ f ∈ (writeChunks bs chunks).1,
      f.sample_rate = bs.sample_rate := by
  induction chunks with
  | nil => intro bs f hf; simp [writeChunks] at hf
  | cons c rest ih =>
      intro bs f hf
      by_cases hc : c.isEmpty
      · rw [writeChunks, if_pos hc] at hf
        exact ih bs f hf
      · rw [writeChunks, if_neg hc] at hf
        rcases List.mem_append.mp hf with h | h
        · exact pushBytes_rate bs c f h
        · exact ih (pushBytes bs c).2 f h

lemma flushStream_bs (bs : AudioByteStream) :
    (flushStream bs).2 = { bs with buf := [] } := by
  by_cases h : bs.buf.isEmpty <;> simp [flushStream, h]

lemma flushStream_bytes (bs : AudioByteStream) :
    framesData (flushStream bs).1 = bs.buf := by
  by_cases h : bs.buf.isEmpty
  · have h2 : bs.buf = [] := by simpa using h
    simp [flushStream, h, framesData, h2]
  · simp [flushStream, h, framesData]

lemma flushStream_rate (bs : AudioByteStream) :
    ∀ f ∈ (flushStream bs).1, f.sample_rate = bs.sample_rate := by
  intro f hf
  by_cases h : bs.buf.isEmpty
  · simp [flushStream, h] at hf
  · simp only [flushStream, if_neg h, List.mem_singleton] at hf
    rw [hf]

lemma bs_clear_eq (bs : AudioByteStream) (rate : Nat)
    (h1 : bs.sample_rate = rate) (h2 : bs.num_channels = NUM_CHANNELS) :
    ({ bs with buf := [] } : AudioByteStream) = emptyBs rate := by
  cases bs
  simp_all [emptyBs]

/-! ## Segment and loop lemmas -/

lemma map_frame_seg (k : Nat) : ∀ fs : List TtsFrame,
    (fs.map (Action.frame k)).map actionSeg = List.replicate fs.length k
  | [] => rfl
  | f :: fs => by
      simp [actionSeg, map_frame_seg k fs, List.replicate_succ]

lemma map_frame_requests (k : Nat) : ∀ fs : List TtsFrame,
    (fs.map (Action.frame k)).filterMap requestText = []
  | [] => rfl
  | f :: fs => by simp [requestText, map_frame_requests k fs]

lemma map_frame_frames (k : Nat) : ∀ fs : List TtsFrame,
    (fs.map (Action.frame k)).filterMap frameOf = fs
  | [] => rfl
  | f :: fs => by simp [frameOf, map_frame_frames k fs]

lemma runSegment_empty (k rate : Nat) (resp : SegResponse) :
    runSegment k (emptyBs rate) resp = .ok (segBody rate k resp, emptyBs rate) := by
  cases resp with
  | exc => rfl
  | badStatus s r => rfl
  | ok chunks =>
      have h := writeChunks_sr chunks (emptyBs rate)
      simp only [runSegment, synthesizeTextTry, segBody]
      rw [flushStream_bs, bs_clear_eq _ rate h.1 h.2]

lemma segBody_seg (rate k : Nat) (resp : SegResponse) :
    (segBody rate k resp).map actionSeg =
      List.replicate (segBody rate k resp).length k := by
  cases resp with
  | exc => rfl
  | badStatus s r => rfl
  | ok chunks =>
      simp only [segBody]
      rw [map_frame_seg, List.length_map]

lemma segActions_seg (rate k : Nat) (text : String) (resp : SegResponse) :
    (segActions rate k text resp).map actionSeg =
      List.replicate (segActions rate k text resp).length k := by
  simp [segActions, actionSeg, segBody_seg rate k resp, List.replicate_succ]

lemma segBody_requests (rate k : Nat) (resp : SegResponse) :
    (segBody rate k resp).filterMap requestText = [] := by
  cases resp with
  | exc => rfl
  | badStatus s r => rfl
  | ok chunks =>
      simp only [segBody]
      rw [map_frame_requests]

lemma segBody_bytes (rate k : Nat) (chunks : List (List Nat)) :
    framesBytes (segBody rate k (.ok chunks)) = chunks.flatten := by
  simp only [segBody, framesBytes, map_frame_frames]
  have h1 := writeChunks_bytes chunks (emptyBs rate)
  have h2 := flushStream_bytes (writeChunks (emptyBs rate) chunks).2
  simp only [framesData] at h1 h2
  rw [List.map_append, List.flatten_append, h2]
  simpa [emptyBs] using h1

lemma segBody_frames_rate (rate k : Nat) (resp : SegResponse) :
    ∀ f ∈ (segBody rate k resp).filterMap frameOf, f.sample_rate = rate := by
  cases resp with
  | exc => intro f hf; simp [segBody, frameOf] at hf
  | badStatus s r => intro f hf; simp [segBody, frameOf] at hf
  | ok chunks =>
      intro f hf
      simp only [segBody, map_frame_frames] at hf
      rcases List.mem_append.mp hf with h | h
      · exact writeChunks_rate chunks (emptyBs rate) f h
      · have h2 := flushStream_rate _ f h
        rw [h2]
        exact (writeChunks_sr chunks (emptyBs rate)).1

lemma segTraces_requests (net : Nat → SegResponse) (rate : Nat) :
    ∀ (ts : List String) (k : Nat),
      (segTraces net rate k ts).filterMap requestText = ts
  | [], _ => rfl
  | t :: ts, k => by
      simp [segTraces, segActions, List.filterMap_append, List.filterMap_cons,
        requestText, segBody_requests, segTraces_requests net rate ts (k + 1)]

lemma segTraces_frames_rate (net : Nat → SegResponse) (rate : Nat) :
    ∀ (ts : List String) (k : Nat),
      ∀ f ∈ (segTraces net rate k ts).filterMap frameOf, f.sample_rate = rate := by
  intro ts
  induction ts with
  | nil => intro k f hf; simp [segTraces] at hf
  | cons t ts ih =>
      intro k f hf
      simp only [segTraces, segActions, List.filterMap_append, List.filterMap_cons,
        frameOf, List.cons_append] at hf
      rcases List.mem_append.mp hf with h | h
      · exact segBody_frames_rate rate k (net k) f h
      · exact ih (k + 1) f h

lemma runLoop_spec (net : Nat → SegResponse) (rate : Nat) :
    ∀ (events : List StreamEvent) (acc : String) (opts : TTSOptions) (k : Nat),
      runLoop net events acc (emptyBs rate) opts k =
        .ok (segTraces net rate k (segmentsFrom acc (inputsOf events)),
             emptyBs rate, applyEvents opts events,
             k + (segmentsFrom acc (inputsOf events)).length) := by
  intro events
  induction events with
  | nil =>
      intro acc opts k
      simp [runLoop, inputsOf, segmentsFrom, segTraces, applyEvents]
  | cons e rest ih =>
      intro acc opts k
      cases e with
      | update u =>
          simp only [runLoop]
          rw [ih]
          simp [inputsOf, applyEvents]
      | input d =>
          cases d with
          | token s =>
              simp only [runLoop]
              by_cases hp : containsPunct (acc ++ s) = true
              · by_cases hs : pyStrip (acc ++ s) = ""
                · rw [if_pos hp, if_pos hs, ih]
                  simp [inputsOf, segmentsFrom, segStep, hp, hs, applyEvents]
                · rw [if_pos hp, if_neg hs]
                  simp only [runSegment_empty, ih]
                  simp [inputsOf, segmentsFrom, segStep, hp, hs, applyEvents,
                    segTraces, segActions]
                  try omega
              · rw [if_neg hp, ih]
                simp [inputsOf, segmentsFrom, segStep, hp, applyEvents]
          | flush =>
              simp only [runLoop]
              by_cases hs : pyStrip acc = ""
              · rw [if_pos hs, ih]
                simp [inputsOf, segmentsFrom, segStep, hs, applyEvents]
              · rw [if_neg hs]
                simp only [runSegment_empty, ih]
                simp [inputsOf, segmentsFrom, segStep, hs, applyEvents,
                  segTraces, segActions]
                try omega

/-- Witness for claim C8, at a two-frame 16 kHz buffer totalling 320
samples per channel. -/
theorem recognize_end_time_spec_witness :
    ∃ ev, recognizeImpl ⟨"ar", some "key", "url"⟩ none
        (.frames [⟨160, 16000⟩, ⟨160, 16000⟩])
        (.response 200 "" ⟨true, some ⟨some "hi"⟩⟩) = .ok ev ∧
      ev.alternatives.map SpeechData.end_time =
        [((320 : Nat) : ℚ) / ((16000 : Nat) : ℚ)] := by
  have h := recognize_end_time_spec ⟨"ar", some "key", "url"⟩ none ""
      ⟨true, some ⟨some "hi"⟩⟩ [160, 160] 16000 7 (by decide) (by decide)
  exact h.1

/-! ## Claims about the streaming synthesis adapter -/

/-- Claim C2, counterexample. The claim says that after `update_options`
with a new `sample_rate`, every subsequently synthesized segment is
reassembled at the new rate. Concretely: a stream starts at 16000 Hz, a
segment is synthesized, `update_options(sample_rate=8000)` is applied
(visible in the final options), and then a second segment is synthesized —
yet its frame still carries 16000 Hz, not 8000: the reassembler is created
once at run start and never rebuilt. -/
theorem update_sample_rate_midstream_cx :
    streamRun ⟨"Ali", "pls", false, 16000⟩
        [.input (.token "Hi."), .update ⟨none, none, some 8000⟩,
         .input (.token "Bye.")]
        (fun _ => .ok [[1, 2, 3, 4]]) =
      .ok ([.request 0 "Hi.", .frame 0 ⟨16000, NUM_CHANNELS, [1, 2, 3, 4]⟩,
            .request 1 "Bye.", .frame 1 ⟨16000, NUM_CHANNELS, [1, 2, 3, 4]⟩],
           emptyBs 16000, ⟨"Ali", "pls", false, 8000⟩, 2) ∧
    (16000 : Nat) ≠ 8000 :=
  ⟨rfl, by decide⟩

/-- Claim C2 as amended (proved). Calling `update_options` with a new
`sample_rate` updates the stored options (and hence streams whose run loop
starts later), but does not change the reassembly of the in-flight stream:
every frame of a running session carries the sample rate in effect when
its run loop started, including frames of segments synthesized after the
update. -/
theorem stream_frames_use_initial_sample_rate (opts : TTSOptions)
    (events : List StreamEvent) (net : Nat → SegResponse) :
    ∃ acts bs o2 k, streamRun opts events net = .ok (acts, bs, o2, k) ∧
      o2 = applyEvents opts events ∧
      (acts.filterMap frameOf).map TtsFrame.sample_rate =
        List.replicate (acts.filterMap frameOf).length opts.sample_rate := by
  refine ⟨_, _, _, _, runLoop_spec net opts.sample_rate events "" opts 0, rfl, ?_⟩
  rw [List.eq_replicate_iff]
  refine ⟨by rw [List.length_map], ?_⟩
  intro b hb
  rw [List.mem_map] at hb
  obtain ⟨f, hf, rfl⟩ := hb
  exact segTraces_frames_rate net opts.sample_rate _ 0 f hf

/-- Claim C3, counterexample. Feeding the segmenter the tokens `"Hello"`,
`" world"`, `"."` yields one finalized segment — but its text is
`"Hello world."` (the accumulator is only whitespace-stripped, the
terminal punctuation is kept), not `"Hello world"` as the claim states. -/
theorem segmenter_example_cx :
    segmentsOf [.token "Hello", .token " world", .token "."] = ["Hello world."] ∧
    segmentsOf [.token "Hello", .token " world", .token "."] ≠ ["Hello world"] := by
  constructor
  · rfl
  · decide

/-- Claim C3 as amended (proved). Feeding `"Hello"`, `" world"`, `"."`
yields exactly one finalized segment `"Hello world."`; in general, when
the accumulator after an append contains one of `.`, `!`, `?`, `\n`, the
whitespace-trimmed accumulator (terminal punctuation included) is emitted
as one finalized segment — provided it is non-empty after trimming — and
the accumulator is reset to empty. -/
theorem segmenter_punct_emits_trimmed (acc s : String)
    (h : containsPunct (acc ++ s) = true) :
    segmentsOf [.token "Hello", .token " world", .token "."] = ["Hello world."] ∧
    segStep acc (.token s) =
      (if pyStrip (acc ++ s) = "" then none else some (pyStrip (acc ++ s)), "") := by
  refine ⟨rfl, ?_⟩
  simp [segStep, h]

/-- Witness for the amended claim C3, at the accumulator "Hello world" and
token ".". -/
theorem segmenter_punct_emits_trimmed_witness :
    segmentsOf [.token "Hello", .token " world", .token "."] = ["Hello world."] ∧
    segStep "Hello world" (.token ".") = (some "Hello world.", "") := by
  have h := segmenter_punct_emits_trimmed "Hello world" "." (by decide)
  exact ⟨h.1, by rw [h.2]; decide⟩

/-- Claim C4 (confirmed). In streaming synthesis, per-segment failures —
non-200 status, transport error, or any other exception inside
`_synthesize_text` — are logged and swallowed: for every input trace and
every network behavior (including one that fails every request), the
stream's run loop completes without propagating any exception, and it
still issues exactly one request per finalized segment, so segments after
a failure are still processed. -/
theorem stream_segment_failures_suppressed (opts : TTSOptions)
    (events : List StreamEvent) (net : Nat → SegResponse) :
    ∃ acts bs o2 k, streamRun opts events net = .ok (acts, bs, o2, k) ∧
      acts.filterMap requestText = segmentsOf (inputsOf events) ∧
      k = (segmentsOf (inputsOf events)).length := by
  refine ⟨_, _, _, _, runLoop_spec net opts.sample_rate events "" opts 0, ?_, ?_⟩
  · exact segTraces_requests net opts.sample_rate _ 0
  · simp [segmentsOf]

/-- Claim C7 (confirmed). On a flush signal the segmenter emits the
trimmed accumulator as one finalized segment when it is non-empty after
trimming and resets the accumulator; a flush on an empty (or
whitespace-only) accumulator emits nothing. The two spec examples also
hold: `"Hi"` followed by flush yields exactly `["Hi"]`, and a lone flush
yields no segment. -/
theorem segmenter_flush_spec (acc : String) :
    segmentsOf [.token "Hi", .flush] = ["Hi"] ∧
    segmentsOf [.flush] = [] ∧
    (pyStrip acc ≠ "" → segStep acc .flush = (some (pyStrip acc), "")) ∧
    (pyStrip acc = "" → segStep acc .flush = (none, "")) := by
  refine ⟨rfl, rfl, ?_, ?_⟩
  · intro h
    simp [segStep, h]
  · intro h
    simp [segStep, h]

/-- Witness for claim C7, at a padded non-empty accumulator and at a
whitespace-only accumulator. -/
theorem segmenter_flush_spec_witness :
    segStep " Hi " .flush = (some "Hi", "") ∧
    segStep "  " .flush = (none, "") := by
  constructor
  · have h := (segmenter_flush_spec " Hi ").2.2.1 (by decide)
    rw [h]
    decide
  · exact (segmenter_flush_spec "  ").2.2.2 (by decide)

/-- Claim C9 (confirmed). Within one streaming session the action trace is
exactly the sequential concatenation of per-segment blocks in segment
order: segment `k`'s request followed by all of segment `k`'s frames (or
its logged failure) comes before segment `k+1`'s request — no reordering
or interleaving, as every action of a block carries its own segment index —
and within a successful segment the concatenated frame payloads equal the
response chunks in arrival order. -/
theorem stream_ordering_decomposition (opts : TTSOptions)
    (events : List StreamEvent) (net : Nat → SegResponse)
    (rate k : Nat) (text : String) (resp : SegResponse)
    (chunks : List (List Nat)) :
    streamRun opts events net =
      .ok (segTraces net opts.sample_rate 0 (segmentsOf (inputsOf events)),
           emptyBs opts.sample_rate, applyEvents opts events,
           (segmentsOf (inputsOf events)).length) ∧
    (segActions rate k text resp).map actionSeg =
      List.replicate (segActions rate k text resp).length k ∧
    framesBytes (segBody rate k (.ok chunks)) = chunks.flatten := by
  refine ⟨?_, segActions_seg rate k text resp, segBody_bytes rate k chunks⟩
  have h := runLoop_spec net opts.sample_rate events "" opts 0
  simpa [segmentsOf] using h

end Hamsa
